import Mathlib

/-!
Verification of the guardian camera-supervision core: a shallow embedding of
`src/camera/camera_worker.py`, `src/camera/camera_manager.py` and the parts of
`src/camera/camera_registry.py` the Manager consumes, together with proofs of
the spec's testable properties.

Modelling conventions:
* Python floats (timestamps, backoff seconds) are embedded as exact rationals.
* Python's per-camera `dict`s are association lists `List (String × α)` with
  first-match lookup; `dict.pop` removes the key, assignment replaces in place.
* Python objects are mutable and aliased: `CameraHealth` dataclass instances
  live in an explicit heap (`List CameraHealth`, addresses are indices), and
  both a Worker's `self.health` field and the Manager's `_health` cache hold
  *addresses*, mirroring reference semantics of
  `self._health[h.camera_id] = h` in `CameraManager._wrap_health_cb`.
* Exceptions are `Except String`; a `try/except` site pattern-matches the
  callee's result.  A function whose Python body cannot raise is either total
  or provably always `.ok`.
* The Worker's run loop executes on its own thread; Manager claims are settled
  against the sequential semantics of one Manager call at a time (each
  lifecycle call's effect on the worker map, the health cache and the heap),
  and loop-local claims against pure trace functions over the loop body.
-/

namespace Guardian

/-- Embeds `WorkerState` literal from camera_worker.py line 14. -/
inductive WorkerState where
  | STOPPED
  | STARTING
  | RUNNING
  | DEGRADED
  | ERROR
deriving DecidableEq, Repr

/-- Embeds `CameraHealth` dataclass (camera_worker.py lines 17-26). -/
structure CameraHealth where
  camera_id : String
  state : WorkerState := .STOPPED
  fps_estimate : ℚ := 0
  last_frame_ts : ℚ := 0
  last_ok_ts : ℚ := 0
  last_error : String := ""
  frames_total : ℕ := 0
  dropped_total : ℕ := 0
deriving DecidableEq, Repr

/-- Embeds `CameraHealth(camera_id=config.id)` default construction
(camera_worker.py line 61). -/
def CameraHealth.init (cid : String) : CameraHealth := { camera_id := cid }

/-- Embeds `CameraType` literal from camera_registry.py line 10. -/
inductive CameraType where
  | USB
  | RTSP
deriving DecidableEq, Repr

/-- The fields of the `CameraConfig` dataclass (camera_registry.py lines
40-57) that the Worker/Manager core reads.  The nested
detect/privacy/recording/zones groups and the created/updated timestamps are
opaque to the core (passed through, never interpreted) and are omitted. -/
structure CameraConfig where
  id : String
  name : String
  type : CameraType
  source : String
  enabled : Bool := true
  fps_limit : ℕ := 20
deriving DecidableEq, Repr

/-! ### FPS throttling (camera_worker.py lines 63-65, 176-180)

The run loop reads a frame, takes `now = time.time()`, and emits the frame
only when `now - self._last_emit_ts >= self._min_frame_interval`, updating
`_last_emit_ts` to `now` on emission; otherwise the frame is discarded by
`continue`.  `fpsEmitTimes` is that throttle as a trace function: from the
current `_last_emit_ts` and the list of successful-read timestamps, the
timestamps at which frames are emitted. -/

/-- Embeds `self._min_frame_interval = 1.0 / max(1, int(config.fps_limit))`
(camera_worker.py line 64). -/
def minFrameInterval (fpsLimit : ℕ) : ℚ := 1 / (max 1 fpsLimit : ℕ)

/-- The FPS-limiting branch of the run loop (camera_worker.py lines 176-180)
applied along a trace of read timestamps: a frame read at `t` is emitted iff
`t - lastEmit ≥ minI`, and emission sets `lastEmit := t`. -/
def fpsEmitTimes (minI : ℚ) (lastEmit : ℚ) : List ℚ → List ℚ
  | [] => []
  | t :: ts =>
    if t - lastEmit < minI then fpsEmitTimes minI lastEmit ts
    else t :: fpsEmitTimes minI t ts

/-! ### Reconnect backoff (camera_worker.py lines 143-161)

`_run_loop` sets `backoff = self.reconnect_backoff_sec` on entry; each pass
through the reconnect branch sleeps `backoff` seconds, attempts
`_open_capture()`, and then either resets `backoff` to the initial value
(success) or sets `backoff = min(self.max_backoff_sec, backoff * 1.6)`
(failure).  `reconnectWaits` returns the sequence of slept waits given the
outcomes of the successive reopen attempts. -/

/-- Default `reconnect_backoff_sec` (camera_worker.py line 47). -/
def defaultReconnectBackoffSec : ℚ := 3 / 2

/-- Default `max_backoff_sec` (camera_worker.py line 48). -/
def defaultMaxBackoffSec : ℚ := 20

/-- Backoff growth factor `1.6` (camera_worker.py line 160). -/
def backoffFactor : ℚ := 8 / 5

/-- The waits slept by successive passes of the reconnect branch
(camera_worker.py lines 153-161), given current `backoff` and the outcome of
each reopen attempt (`true` = `_open_capture()` succeeded). -/
def reconnectWaitsFrom (init maxB : ℚ) : ℚ → List Bool → List ℚ
  | _, [] => []
  | b, outcome :: rest =>
    b :: reconnectWaitsFrom init maxB
      (if outcome then init else min maxB (b * backoffFactor)) rest

/-- The waits of a reconnect cycle entered with `backoff` at its initial
value, as after loop entry (line 144) or after any successful reopen
(line 158). -/
def reconnectWaits (init maxB : ℚ) (outcomes : List Bool) : List ℚ :=
  reconnectWaitsFrom init maxB init outcomes

/-! ### Sink-callback absorption (camera_worker.py lines 197-209 and 216-221)

The behaviour of one invocation of an external callback is a value of
`Except String Unit` (`.error e` = the callback raised `e`).  The outer
`Except String` of each model function is the run loop's own exception
channel: a `.error` there would be an exception escaping the modelled code. -/

/-- Embeds `f"on_frame callback error: {e!r}"` (camera_worker.py line 208), with the
raised exception rendered as its text. -/
def frameCallbackErrorText (e : String) : String :=
  "on_frame callback error: " ++ e

/-- Embeds `CameraWorker._notify_health` (camera_worker.py lines 216-221): when an
`on_health` sink is registered it is invoked inside `try/except Exception:
pass`, so a raising health sink is swallowed.  Returns the list of health
values handed to the sink. -/
def notifyHealthAbsorbs (onHealth : Option (CameraHealth → Except String Unit))
    (h : CameraHealth) : Except String (List CameraHealth) :=
  match onHealth with
  | none => .ok []
  | some cb =>
    match cb h with
    | .ok _ => .ok [h]
    | .error _ => .ok [h]

/-- The frame-callback tail of a run-loop iteration (camera_worker.py lines
197-209): invoke `on_frame` (when registered) inside `try/except Exception`;
on a raise, record `last_error` and publish a health update via
`_notify_health`.  Returns the worker's health after the site together with
the health updates handed to the health sink. -/
def frameCallbackStep (onFrame : Option (Except String Unit))
    (onHealth : Option (CameraHealth → Except String Unit))
    (h : CameraHealth) : Except String (CameraHealth × List CameraHealth) :=
  match onFrame with
  | none => .ok (h, [])
  | some (.ok _) => .ok (h, [])
  | some (.error e) =>
    let h2 := { h with last_error := frameCallbackErrorText e }
    match notifyHealthAbsorbs onHealth h2 with
    | .ok pubs => .ok (h2, pubs)
    | .error ex => .error ex

/-! ### Manager model (camera_manager.py)

Python `dict`s become association lists with first-match lookup;
`CameraHealth` objects live in a heap addressed by `ℕ` so that the reference
stored by `CameraManager._wrap_health_cb` (`self._health[h.camera_id] = h`,
lines 175-182) aliases the Worker's own `self.health` object. -/

/-- Embeds `m.get(k)` / `m[k]` on a Python dict modelled as an association list. -/
def dictGet {α : Type} (m : List (String × α)) (k : String) : Option α :=
  match m with
  | [] => none
  | (k2, v) :: rest => if k2 = k then some v else dictGet rest k

/-- Embeds `m[k] = v` on a Python dict: replace in place, append if absent. -/
def dictSet {α : Type} (m : List (String × α)) (k : String) (v : α) :
    List (String × α) :=
  match m with
  | [] => [(k, v)]
  | (k2, v2) :: rest =>
    if k2 = k then (k, v) :: rest else (k2, v2) :: dictSet rest k v

/-- Embeds `m.pop(k, None)` on a Python dict: drop the entry for `k` (dict keys are
unique, so dropping every matching entry coincides on well-formed dicts). -/
def dictPop {α : Type} (m : List (String × α)) (k : String) :
    List (String × α) :=
  match m with
  | [] => []
  | (k2, v2) :: rest =>
    if k2 = k then dictPop rest k else (k2, v2) :: dictPop rest k

/-- Read the heap cell at address `r`. -/
def heapGet (heap : List CameraHealth) (r : ℕ) : CameraHealth :=
  heap.getD r (CameraHealth.init "")

/-- Mutate the heap cell at address `r` in place. -/
def heapSet (heap : List CameraHealth) (r : ℕ) (h : CameraHealth) :
    List CameraHealth :=
  heap.set r h

/-- Embeds `CameraRegistry.get` (camera_registry.py lines 90-91): the registry's
`_cameras` dict keyed by `config.id`, viewed as the list of stored configs. -/
def regGet (reg : List CameraConfig) (cid : String) : Option CameraConfig :=
  reg.find? (fun c => c.id == cid)

/-- Embeds `{c.id for c in self.registry.list(include_disabled=False)}`
(camera_manager.py line 113): ids of the enabled configs. -/
def enabledIds (reg : List CameraConfig) : List String :=
  (reg.filter (fun c => c.enabled)).map (fun c => c.id)

/-- Embeds `{c.id for c in self.registry.list(include_disabled=True)}`
(camera_manager.py line 114): all known ids. -/
def allIds (reg : List CameraConfig) : List String :=
  reg.map (fun c => c.id)

/-- The Manager-visible state of one `CameraWorker` object: its immutable
config, whether its run-loop thread is alive, and the address of its
`self.health` object (camera_worker.py lines 50-69). -/
structure WorkerM where
  config : CameraConfig
  alive : Bool
  healthRef : ℕ
deriving DecidableEq, Repr

/-- Embeds `CameraManager` shared state (camera_manager.py lines 43-44): the worker
map `_workers`, the health cache `_health` (storing object references), and
the heap of `CameraHealth` objects. -/
structure MState where
  workers : List (String × WorkerM)
  healthCache : List (String × ℕ)
  heap : List CameraHealth
deriving DecidableEq, Repr

/-- A fresh Manager with no workers and no cached health. -/
def MState.empty : MState := ⟨[], [], []⟩

/-- Embeds `CameraManager._wrap_health_cb` (lines 175-182): on a health update the
Manager stores `self._health[h.camera_id] = h` — the *reference* `r` to the
publishing Worker's health object, keyed by that object's `camera_id`. -/
def publishHealth (st : MState) (r : ℕ) : MState :=
  { st with healthCache := dictSet st.healthCache (heapGet st.heap r).camera_id r }

/-- Embeds `CameraWorker.stop` (camera_worker.py lines 88-94): signal stop, release
the capture, join the thread (run loop exits, so the thread is no longer
alive), set `health.state = "STOPPED"` on the worker's own health object and
publish it. -/
def workerStop (st : MState) (w : WorkerM) : MState × WorkerM :=
  let h := { heapGet st.heap w.healthRef with state := WorkerState.STOPPED }
  let st2 := { st with heap := heapSet st.heap w.healthRef h }
  (publishHealth st2 w.healthRef, { w with alive := false })

/-- Embeds `CameraWorker.start` (camera_worker.py lines 74-86): return if the thread
is already alive; otherwise clear the stop signal, set
`health.state = "STARTING"`, publish, and launch the run-loop thread. -/
def workerStart (st : MState) (w : WorkerM) : MState × WorkerM :=
  if w.alive then (st, w)
  else
    let h := { heapGet st.heap w.healthRef with state := WorkerState.STARTING }
    let st2 := { st with heap := heapSet st.heap w.healthRef h }
    (publishHealth st2 w.healthRef, { w with alive := true })

/-- Embeds `CameraWorker.restart` (camera_worker.py lines 96-100): `stop()` then
`start()` on the *same* Worker instance — the health object (and in
particular its counters) is the one the Worker already had.  The refreshed
`_min_frame_interval` is loop-local state not visible to the Manager. -/
def workerRestart (st : MState) (w : WorkerM) : MState × WorkerM :=
  let p := workerStop st w
  workerStart p.1 p.2

/-- The fresh-Worker branch shared by `CameraManager.start` (camera_manager.py
lines 70-77): `CameraWorker.__init__` allocates a fresh
`CameraHealth(camera_id=config.id)` object, the Worker is stored under
`camera_id`, and `worker.start()` (issued outside the lock) mutates the
stored instance. -/
def mStartNew (st : MState) (cid : String) (cam : CameraConfig) :
    MState × Bool :=
  let r := st.heap.length
  let st1 : MState := { st with heap := st.heap ++ [CameraHealth.init cam.id] }
  let w0 : WorkerM := { config := cam, alive := false, healthRef := r }
  let st2 := { st1 with workers := dictSet st1.workers cid w0 }
  let p := workerStart st2 w0
  ({ p.1 with workers := dictSet p.1.workers cid p.2 }, true)

/-- Embeds `CameraManager.start` (camera_manager.py lines 63-77): resolve the config
via `_require_config` (raises `"Camera not found in registry: ..."` when
absent, lines 160-164); return without action when a live Worker is already
tracked; otherwise create and start a replacement Worker.  The `Bool` records
whether a lifecycle call was issued to a Worker. -/
def mStart (reg : List CameraConfig) (st : MState) (cid : String) :
    Except String (MState × Bool) :=
  match regGet reg cid with
  | none => .error ("Camera not found in registry: " ++ cid)
  | some cam =>
    match dictGet st.workers cid with
    | some w => if w.alive then .ok (st, false) else .ok (mStartNew st cid cam)
    | none => .ok (mStartNew st cid cam)

/-- Embeds `CameraManager.stop` (camera_manager.py lines 79-87): read the tracked
Worker (no Registry lookup), call `worker.stop` when one exists, then
`pop(camera_id, None)`.  The body cannot raise.  The `Bool` records whether a
lifecycle call was issued. -/
def mStop (st : MState) (cid : String) : MState × Bool :=
  match dictGet st.workers cid with
  | none => ({ st with workers := dictPop st.workers cid }, false)
  | some w =>
    let p := workerStop st w
    ({ p.1 with workers := dictPop p.1.workers cid }, true)

/-- Embeds `CameraManager.restart` (camera_manager.py lines 89-98): when a Worker is
tracked, delegate to `worker.restart()` (same instance, no Registry lookup);
otherwise fall through to `start(camera_id)`. -/
def mRestart (reg : List CameraConfig) (st : MState) (cid : String) :
    Except String (MState × Bool) :=
  match dictGet st.workers cid with
  | some w =>
    let p := workerRestart st w
    .ok ({ p.1 with workers := dictSet p.1.workers cid p.2 }, true)
  | none => mStart reg st cid

/-- Embeds `CameraManager.get_health` (camera_manager.py lines 140-142): return the
cached object for `camera_id`; reading its fields dereferences the stored
object at read time. -/
def getHealth (st : MState) (cid : String) : Option CameraHealth :=
  (dictGet st.healthCache cid).map (heapGet st.heap)

/-- Embeds `CameraManager.list_health` (camera_manager.py lines 144-146): the cached
health objects, dereferenced at read time. -/
def listHealth (st : MState) : List CameraHealth :=
  st.healthCache.map (fun e => heapGet st.heap e.2)

/-- Embeds `ManagerSnapshot` dataclass (camera_manager.py lines 14-20). -/
structure ManagerSnapshot where
  total : ℕ
  running : ℕ
  degraded : ℕ
  stopped : ℕ
  error : ℕ
deriving DecidableEq, Repr

/-- Embeds `CameraManager.snapshot` (camera_manager.py lines 148-155): count the
cached health values by exact state. -/
def snapshot (st : MState) : ManagerSnapshot :=
  let hs := listHealth st
  { total := hs.length
    running := hs.countP (fun h => decide (h.state = WorkerState.RUNNING))
    degraded := hs.countP (fun h => decide (h.state = WorkerState.DEGRADED))
    stopped := hs.countP (fun h => decide (h.state = WorkerState.STOPPED))
    error := hs.countP (fun h => decide (h.state = WorkerState.ERROR)) }

/-- A lifecycle action issued to a Worker during reconciliation. -/
inductive Action where
  | start (cid : String)
  | stop (cid : String)
deriving DecidableEq, Repr

/-- Embeds `camera_id in self._workers and self._workers[camera_id].is_alive()`
(camera_manager.py line 127). -/
def workerAliveAt (st : MState) (cid : String) : Bool :=
  match dictGet st.workers cid with
  | some w => w.alive
  | none => false

/-- One pass of the stop loop of `apply_registry_state` (camera_manager.py
lines 120-122): stop `cid` when it is not enabled. -/
def stopStep (enabled : List String) (p : MState × List Action) (cid : String) :
    MState × List Action :=
  if cid ∈ enabled then p
  else
    let q := mStop p.1 cid
    (q.1, p.2 ++ if q.2 then [Action.stop cid] else [])

/-- One pass of the start loop of `apply_registry_state` (camera_manager.py
lines 125-129): start `cid` when no live Worker is tracked for it. -/
def startStep (reg : List CameraConfig) (p : MState × List Action)
    (cid : String) : Except String (MState × List Action) :=
  if workerAliveAt p.1 cid then .ok p
  else
    match mStart reg p.1 cid with
    | .ok q => .ok (q.1, p.2 ++ if q.2 then [Action.start cid] else [])
    | .error e => .error e

/-- Embeds `CameraManager.apply_registry_state` (camera_manager.py lines 107-135):
snapshot the running id set, stop every running id not enabled, start every
enabled id with no live Worker, then prune cached health entries whose id is
no longer known at all.  Returns the reconciled state and the lifecycle
actions issued. -/
def applyRegistryState (reg : List CameraConfig) (st : MState) :
    Except String (MState × List Action) :=
  let enabled := enabledIds reg
  let allKnown := allIds reg
  let running := st.workers.map Prod.fst
  let p1 := running.foldl (stopStep enabled) (st, [])
  match enabled.foldlM (startStep reg) p1 with
  | .error e => .error e
  | .ok p2 =>
    .ok ({ p2.1 with
            healthCache := p2.1.healthCache.filter
              (fun e => decide (e.1 ∈ allKnown)) },
         p2.2)

/-- The successful-read health mutations of the run loop (camera_worker.py
lines 180-186) applied to a health value: bump `frames_total`, stamp the
frame, set RUNNING.  (No publish happens unless the fps window closes.) -/
def emitHealthUpdate (h : CameraHealth) (now : ℚ) : CameraHealth :=
  { h with
    frames_total := h.frames_total + 1
    last_frame_ts := now
    last_ok_ts := now
    state := WorkerState.RUNNING }

/-- A Worker performing the lines 180-186 mutations on its own health object
in place. -/
def workerEmitFrame (st : MState) (w : WorkerM) (now : ℚ) : MState :=
  { st with
    heap := heapSet st.heap w.healthRef
      (emitHealthUpdate (heapGet st.heap w.healthRef) now) }

/-! ### Association-list and heap lemmas -/

theorem dictGet_dictSet_self {α : Type} (m : List (String × α)) (k : String)
    (v : α) : dictGet (dictSet m k v) k = some v := by
  induction m with
  | nil => simp [dictSet, dictGet]
  | cons e rest ih =>
    obtain ⟨k2, v2⟩ := e
    by_cases h : k2 = k
    · subst h; simp [dictSet, dictGet]
    · simp [dictSet, dictGet, h, ih]

theorem dictGet_dictSet_ne {α : Type} (m : List (String × α)) (k k2 : String)
    (v : α) (h : k2 ≠ k) : dictGet (dictSet m k v) k2 = dictGet m k2 := by
  have hk : ¬ (k = k2) := fun hh => h hh.symm
  induction m with
  | nil => simp [dictSet, dictGet, hk]
  | cons e rest ih =>
    obtain ⟨k3, v3⟩ := e
    by_cases h3 : k3 = k
    · subst h3; simp [dictSet, dictGet, hk]
    · by_cases h2 : k3 = k2
      · subst h2; simp [dictSet, dictGet, h3]
      · simp [dictSet, dictGet, h3, h2, ih]

theorem dictGet_dictPop_self {α : Type} (m : List (String × α)) (k : String) :
    dictGet (dictPop m k) k = none := by
  induction m with
  | nil => simp [dictPop, dictGet]
  | cons e rest ih =>
    obtain ⟨k2, v2⟩ := e
    by_cases h : k2 = k
    · simp [dictPop, h, ih]
    · simp [dictPop, dictGet, h, ih]

theorem dictGet_dictPop_ne {α : Type} (m : List (String × α)) (k k2 : String)
    (h : k2 ≠ k) : dictGet (dictPop m k) k2 = dictGet m k2 := by
  have hk : ¬ (k = k2) := fun hh => h hh.symm
  induction m with
  | nil => simp [dictPop]
  | cons e rest ih =>
    obtain ⟨k3, v3⟩ := e
    by_cases h3 : k3 = k
    · subst h3; simp [dictPop, dictGet, hk, ih]
    · by_cases h2 : k3 = k2
      · subst h2; simp [dictPop, dictGet, h3]
      · simp [dictPop, dictGet, h3, h2, ih]

theorem dictGet_eq_none_of_not_mem {α : Type} (m : List (String × α))
    (k : String) (h : k ∉ m.map Prod.fst) : dictGet m k = none := by
  induction m with
  | nil => rfl
  | cons e rest ih =>
    obtain ⟨k2, v2⟩ := e
    simp only [List.map_cons, List.mem_cons, not_or] at h
    have hk : ¬ (k2 = k) := fun hh => h.1 hh.symm
    simp [dictGet, hk, ih h.2]

theorem dictGet_isSome_of_mem {α : Type} (m : List (String × α)) (k : String)
    (h : k ∈ m.map Prod.fst) : (dictGet m k).isSome = true := by
  induction m with
  | nil => simp at h
  | cons e rest ih =>
    obtain ⟨k2, v2⟩ := e
    by_cases h2 : k2 = k
    · simp [dictGet, h2]
    · simp only [List.map_cons, List.mem_cons] at h
      rcases h with h | h
      · exact absurd h.symm h2
      · simp [dictGet, h2, ih h]

theorem heapSet_length (heap : List CameraHealth) (r : ℕ) (h : CameraHealth) :
    (heapSet heap r h).length = heap.length := by
  simp [heapSet]

theorem heapGet_heapSet_self (heap : List CameraHealth) (r : ℕ)
    (h : CameraHealth) (hr : r < heap.length) :
    heapGet (heapSet heap r h) r = h := by
  simp [heapGet, heapSet, List.getD, List.getElem?_set_self, hr]

theorem heapGet_heapSet_ne (heap : List CameraHealth) (r r2 : ℕ)
    (h : CameraHealth) (hne : r2 ≠ r) :
    heapGet (heapSet heap r h) r2 = heapGet heap r2 := by
  simp [heapGet, heapSet, List.getD, List.getElem?_set_ne (fun hh => hne hh.symm)]

theorem heapGet_append_self (heap : List CameraHealth) (h : CameraHealth) :
    heapGet (heap ++ [h]) heap.length = h := by
  simp [heapGet, List.getD, List.getElem?_append_right (le_refl heap.length)]

/-! ### FPS throttle lemmas (claim C1) -/

theorem fpsEmitTimes_head_chain (minI : ℚ) (ts : List ℚ) : ∀ (last : ℚ),
    (∀ x, (fpsEmitTimes minI last ts).head? = some x → minI ≤ x - last) ∧
    List.Chain' (fun a b => minI ≤ b - a) (fpsEmitTimes minI last ts) := by
  induction ts with
  | nil =>
    intro last
    exact ⟨fun x hx => by simp [fpsEmitTimes] at hx, by simp [fpsEmitTimes]⟩
  | cons t ts ih =>
    intro last
    by_cases hlt : t - last < minI
    · simpa only [fpsEmitTimes, if_pos hlt] using ih last
    · simp only [fpsEmitTimes, if_neg hlt]
      constructor
      · intro x hx
        simp only [List.head?_cons, Option.some.injEq] at hx
        subst hx
        linarith [not_lt.mp hlt]
      · rw [List.chain'_cons']
        exact ⟨fun b hb => (ih t).1 b (Option.mem_def.mp hb), (ih t).2⟩

/-! ### Backoff lemmas (claim C2) -/

theorem reconnectWaitsFrom_rel (init maxB : ℚ) (outcomes : List Bool) :
    ∀ (b : ℚ) (k : ℕ) (b1 b2 : ℚ) (o : Bool),
    (reconnectWaitsFrom init maxB b outcomes).get? k = some b1 →
    (reconnectWaitsFrom init maxB b outcomes).get? (k + 1) = some b2 →
    outcomes.get? k = some o →
    b2 = if o then init else min maxB (b1 * backoffFactor) := by
  induction outcomes with
  | nil =>
    intro b k b1 b2 o h1 _ _
    simp [reconnectWaitsFrom] at h1
  | cons o0 rest ih =>
    intro b k b1 b2 o h1 h2 h3
    match k with
    | 0 =>
      simp only [reconnectWaitsFrom, List.get?_cons_zero, Option.some.injEq]
        at h1 h3
      subst h1; subst h3
      cases rest with
      | nil => simp [reconnectWaitsFrom] at h2
      | cons o1 rest2 =>
        simp only [reconnectWaitsFrom, List.get?_cons_succ,
          List.get?_cons_zero, Option.some.injEq] at h2
        exact h2.symm
    | k + 1 =>
      exact ih _ k b1 b2 o
        (by simpa [reconnectWaitsFrom] using h1)
        (by simpa [reconnectWaitsFrom] using h2)
        (by simpa using h3)

/-! ### Callback absorption lemmas (claim C5) -/

theorem notifyHealthAbsorbs_ok
    (onHealth : Option (CameraHealth → Except String Unit)) (hv : CameraHealth) :
    notifyHealthAbsorbs onHealth hv =
      .ok (if onHealth.isSome then [hv] else []) := by
  cases onHealth with
  | none => rfl
  | some cb => cases hcb : cb hv <;> simp [notifyHealthAbsorbs, hcb]

/-! ### Claim C1 -/

/-- C1: for every fps limit F in [1,60], along any trace of read timestamps
the throttle of `CameraWorker._run_loop` (lines 176-180) emits frames whose
consecutive timestamps are never less than 1/F apart, and a frame read before
1/F seconds have elapsed since the last emit is discarded without being
emitted (the trace continues exactly as if that read had not happened). -/
theorem fps_throttle_min_interval (F : ℕ) (h1 : 1 ≤ F) (h60 : F ≤ 60)
    (lastEmit : ℚ) (ts : List ℚ) :
    List.Chain' (fun a b => (1 : ℚ) / (F : ℚ) ≤ b - a)
      (fpsEmitTimes (minFrameInterval F) lastEmit ts) ∧
    (∀ t, t - lastEmit < (1 : ℚ) / (F : ℚ) →
      fpsEmitTimes (minFrameInterval F) lastEmit (t :: ts) =
        fpsEmitTimes (minFrameInterval F) lastEmit ts) := by
  have h60q : F ≤ 60 := h60
  have hmi : minFrameInterval F = (1 : ℚ) / (F : ℚ) := by
    unfold minFrameInterval
    rw [Nat.max_eq_right h1]
  rw [hmi]
  constructor
  · exact (fpsEmitTimes_head_chain _ ts lastEmit).2
  · intro t ht
    simp only [fpsEmitTimes, if_pos ht]

/-- Witness for C1 at F = 5: on the concrete trace
`[1/10, 1/5, 2/5, 7/10]` from `lastEmit = 0` the emitted timestamps are at
least 1/5 apart, and the early read at 1/10 is discarded. -/
theorem fps_throttle_min_interval_witness :
    List.Chain' (fun a b => (1 : ℚ) / ((5 : ℕ) : ℚ) ≤ b - a)
      (fpsEmitTimes (minFrameInterval 5) 0 [1/10, 1/5, 2/5, 7/10]) ∧
    fpsEmitTimes (minFrameInterval 5) 0 ((1/10 : ℚ) :: [1/5]) =
      fpsEmitTimes (minFrameInterval 5) 0 [1/5] := by
  constructor
  · exact (fps_throttle_min_interval 5 (by norm_num) (by norm_num) 0
      [1/10, 1/5, 2/5, 7/10]).1
  · exact (fps_throttle_min_interval 5 (by norm_num) (by norm_num) 0
      [1/5]).2 (1/10) (by norm_num)

/-! ### Claim C2 -/

/-- C2: in the reconnect cycle of `CameraWorker._run_loop` (lines 143-161)
the wait before the first reconnect attempt equals the configured initial
backoff (default 1.5s), after each failed reopen the next wait is
`min(max_backoff_sec, previous * 1.6)` (default ceiling 20s), and after a
successful reopen the next wait resets to the initial value. -/
theorem reconnect_backoff_spec (init maxB : ℚ) (outcomes : List Bool) :
    defaultReconnectBackoffSec = 3 / 2 ∧
    defaultMaxBackoffSec = 20 ∧
    backoffFactor = 8 / 5 ∧
    (outcomes ≠ [] → (reconnectWaits init maxB outcomes).head? = some init) ∧
    (∀ k b1 b2 o,
      (reconnectWaits init maxB outcomes).get? k = some b1 →
      (reconnectWaits init maxB outcomes).get? (k + 1) = some b2 →
      outcomes.get? k = some o →
      b2 = if o then init else min maxB (b1 * backoffFactor)) := by
  refine ⟨rfl, rfl, rfl, ?_, ?_⟩
  · intro hne
    cases outcomes with
    | nil => exact absurd rfl hne
    | cons o rest => rfl
  · intro k b1 b2 o hg1 hg2 ho
    exact reconnectWaitsFrom_rel init maxB outcomes init k b1 b2 o hg1 hg2 ho

/-- Witness for C2 on the concrete outcome trace fail-succeed-fail starting
from the default 1.5s with ceiling 20s: the first wait is 1.5 and the wait
after the first failure is `min 20 (1.5 * 1.6) = 2.4`. -/
theorem reconnect_backoff_spec_witness :
    (reconnectWaits (3/2) 20 [false, true, false]).head? = some (3/2) ∧
    (12/5 : ℚ) = if false then (3/2 : ℚ) else min 20 ((3/2) * backoffFactor) := by
  obtain ⟨-, -, -, hhead, hrel⟩ :=
    reconnect_backoff_spec (3/2) 20 [false, true, false]
  have hlist : reconnectWaits (3/2 : ℚ) 20 [false, true, false] =
      [3/2, 12/5, 3/2] := by
    simp only [reconnectWaits, reconnectWaitsFrom, if_false, if_true,
      Bool.false_eq_true, Bool.true_eq_false, ite_false, ite_true]
    norm_num [backoffFactor, min_def]
  refine ⟨hhead (by simp), ?_⟩
  exact hrel 0 (3/2) (12/5) false (by rw [hlist]; rfl) (by rw [hlist]; rfl) rfl

/-! ### Claim C5 -/

/-- C5: every exception raised by an external frame or health sink is
absorbed inside the Worker (camera_worker.py lines 197-209 and 216-221): the
modelled code always returns `.ok` (no exception escapes the loop), a
frame-callback error is recorded into `health.last_error` and published as a
health update to the registered health sink, and a health-callback error is
swallowed by `_notify_health`. -/
theorem sink_callback_errors_absorbed (onFrame : Option (Except String Unit))
    (onHealth : Option (CameraHealth → Except String Unit)) (h : CameraHealth) :
    ∃ r, frameCallbackStep onFrame onHealth h = .ok r ∧
      ((onFrame = none ∨ onFrame = some (.ok ())) → r = (h, [])) ∧
      (∀ e, onFrame = some (.error e) →
        r.1 = { h with last_error := frameCallbackErrorText e } ∧
        r.2 = if onHealth.isSome then [r.1] else []) ∧
      (∀ hv, notifyHealthAbsorbs onHealth hv =
        .ok (if onHealth.isSome then [hv] else [])) := by
  cases onFrame with
  | none =>
    refine ⟨(h, []), rfl, fun _ => rfl, ?_,
      fun hv => notifyHealthAbsorbs_ok onHealth hv⟩
    intro e he
    simp at he
  | some res =>
    cases res with
    | ok u =>
      cases u
      refine ⟨(h, []), rfl, fun _ => rfl, ?_,
        fun hv => notifyHealthAbsorbs_ok onHealth hv⟩
      intro e he
      simp at he
    | error e0 =>
      refine ⟨({ h with last_error := frameCallbackErrorText e0 },
        if onHealth.isSome then
          [{ h with last_error := frameCallbackErrorText e0 }] else []),
        ?_, ?_, ?_, fun hv => notifyHealthAbsorbs_ok onHealth hv⟩
      · simp [frameCallbackStep, notifyHealthAbsorbs_ok]
      · intro hc
        rcases hc with hc | hc <;> simp at hc
      · intro e he
        simp only [Option.some.injEq, Except.error.injEq] at he
        subst he
        exact ⟨rfl, rfl⟩

/-- Witness for C5: a frame callback raising "boom" while the health sink
itself raises "sink down" still yields a normal `.ok` result with the error
recorded and the updated health handed to the sink. -/
theorem sink_callback_errors_absorbed_witness :
    frameCallbackStep (some (.error "boom"))
      (some (fun _ => .error "sink down")) (CameraHealth.init "cam_1") =
    .ok ({ CameraHealth.init "cam_1" with
            last_error := frameCallbackErrorText "boom" },
         [{ CameraHealth.init "cam_1" with
             last_error := frameCallbackErrorText "boom" }]) := by
  obtain ⟨r, hr, -, herr, -⟩ :=
    sink_callback_errors_absorbed (some (.error "boom"))
      (some (fun _ => .error "sink down")) (CameraHealth.init "cam_1")
  obtain ⟨r1, r2⟩ := r
  obtain ⟨h1, h2⟩ := herr "boom" rfl
  simp only [Option.isSome_some, if_true] at h1 h2
  subst h1
  subst h2
  exact hr

/-! ### Concrete sample data for witnesses and counterexamples -/

/-- A valid USB camera configuration. -/
def sampleConfig : CameraConfig :=
  { id := "cam_1", name := "Cam 1", type := CameraType.USB, source := "0",
    enabled := true, fps_limit := 5 }

/-- A live Worker for `sampleConfig` whose health object is heap cell 0. -/
def sampleWorker : WorkerM :=
  { config := sampleConfig, alive := true, healthRef := 0 }

/-- A Manager tracking one running camera whose health was just published. -/
def sampleRunningSt : MState :=
  { workers := [("cam_1", sampleWorker)]
    healthCache := [("cam_1", 0)]
    heap := [{ CameraHealth.init "cam_1" with state := WorkerState.RUNNING }] }

/-- A Manager tracking one running camera whose health counters have already
advanced to 5 frames and 2 drops. -/
def sampleCountedSt : MState :=
  { workers := [("cam_1", sampleWorker)]
    healthCache := [("cam_1", 0)]
    heap := [{ CameraHealth.init "cam_1" with
               state := WorkerState.RUNNING
               frames_total := 5
               dropped_total := 2 }] }

/-- A Manager caching one health entry in state STARTING. -/
def sampleStartingSt : MState :=
  { workers := []
    healthCache := [("cam_1", 0)]
    heap := [{ CameraHealth.init "cam_1" with state := WorkerState.STARTING }] }

/-! ### Claim C6 -/

/-- C6: for a camera id with a tracked Worker, `CameraManager.stop` followed
immediately by `get_health` returns a health value in state STOPPED:
`worker.stop` sets the health object's state to STOPPED and publishes it into
the Manager's cache before the Worker is dropped from the map. -/
theorem stop_then_get_health_stopped (st : MState) (cid : String) (w : WorkerM)
    (hw : dictGet st.workers cid = some w)
    (hr : w.healthRef < st.heap.length)
    (hid : (heapGet st.heap w.healthRef).camera_id = cid) :
    ∃ h, getHealth (mStop st cid).1 cid = some h ∧
      h.state = WorkerState.STOPPED := by
  refine ⟨{ heapGet st.heap w.healthRef with state := WorkerState.STOPPED },
    ?_, rfl⟩
  simp only [mStop, workerStop, publishHealth, getHealth, hw]
  rw [heapGet_heapSet_self _ _ _ hr]
  have hkey : ({ heapGet st.heap w.healthRef with
      state := WorkerState.STOPPED } : CameraHealth).camera_id = cid := hid
  rw [hkey, dictGet_dictSet_self]
  simp only [Option.map_some']
  rw [heapGet_heapSet_self _ _ _ hr]

/-- Witness for C6 on the concrete one-camera Manager state. -/
theorem stop_then_get_health_stopped_witness :
    ∃ h, getHealth (mStop sampleRunningSt "cam_1").1 "cam_1" = some h ∧
      h.state = WorkerState.STOPPED :=
  stop_then_get_health_stopped sampleRunningSt "cam_1" sampleWorker
    (by decide) (by decide) (by decide)

/-! ### Claim C7 -/

/-- C7 counterexample: `CameraManager.stop` on an id absent from the Registry
(here: a fresh Manager, and `"cam_x"` unknown) completes normally with no
"camera not found" condition — `stop` never consults the Registry — and
`restart` on an id with a tracked Worker succeeds even though the Registry
(empty here) cannot resolve the id. -/
theorem stop_restart_not_found_counterexample :
    mStop MState.empty "cam_x" = (MState.empty, false) ∧
    (mRestart [] sampleRunningSt "cam_1").toOption.isSome = true := by
  constructor
  · decide
  · decide

/-- C7 amended: for a camera id the Registry cannot resolve, `start` raises
"Camera not found in registry" (fatal to that call only); `restart` raises it
only when no Worker is tracked for the id (it then delegates to `start`),
and succeeds without consulting the Registry when a Worker is tracked;
`stop` never performs a Registry lookup (see the counterexample and the
definition of `mStop`). -/
theorem config_not_found_semantics (reg : List CameraConfig) (st : MState)
    (cid : String) (habs : regGet reg cid = none) :
    mStart reg st cid = .error ("Camera not found in registry: " ++ cid) ∧
    (dictGet st.workers cid = none →
      mRestart reg st cid = .error ("Camera not found in registry: " ++ cid)) ∧
    (∀ w, dictGet st.workers cid = some w →
      (mRestart reg st cid).toOption.isSome = true) := by
  refine ⟨?_, ?_, ?_⟩
  · simp [mStart, habs]
  · intro hw
    simp [mRestart, mStart, hw, habs]
  · intro w hw
    simp [mRestart, hw, Except.toOption]

/-- Witness for C7 (amended) at a concrete absent id on a fresh Manager. -/
theorem config_not_found_semantics_witness :
    mStart [] MState.empty "cam_x" =
      .error ("Camera not found in registry: " ++ "cam_x") ∧
    mRestart [] MState.empty "cam_x" =
      .error ("Camera not found in registry: " ++ "cam_x") := by
  obtain ⟨hs, hr, -⟩ :=
    config_not_found_semantics [] MState.empty "cam_x" (by decide)
  exact ⟨hs, hr (by decide)⟩

/-! ### Claim C8 -/

/-- C8 counterexample: the Manager's cached health for `cam_1` reads
`frames_total = 0`; after the owning Worker's in-place frame mutation (with
no further publish) the same cached entry reads `frames_total = 1` — the
cached `WorkerHealth` is not an independent snapshot and `get_health` does
not return the last published values. -/
theorem health_by_value_counterexample :
    (getHealth sampleRunningSt "cam_1").map (fun h => h.frames_total) =
      some 0 ∧
    (getHealth (workerEmitFrame sampleRunningSt sampleWorker 5) "cam_1").map
      (fun h => h.frames_total) = some 1 := by
  constructor
  · decide
  · decide

/-- C8 amended: health is published by reference, not by value:
`_wrap_health_cb` caches the Worker's own mutable health object
(`self._health[h.camera_id] = h`), so the cached entry aliases the Worker's
health — `get_health` returns the Worker's current health values, and a
subsequent in-place Worker mutation (here the run loop's frame-emit update)
is visible through the cache without any new publish. -/
theorem health_published_by_reference (st : MState) (cid : String)
    (w : WorkerM) (now : ℚ)
    (hc : dictGet st.healthCache cid = some w.healthRef)
    (hr : w.healthRef < st.heap.length) :
    getHealth st cid = some (heapGet st.heap w.healthRef) ∧
    getHealth (workerEmitFrame st w now) cid =
      some (emitHealthUpdate (heapGet st.heap w.healthRef) now) := by
  constructor
  · simp [getHealth, hc]
  · simp only [getHealth, workerEmitFrame, hc, Option.map_some']
    rw [heapGet_heapSet_self _ _ _ hr]

/-- Witness for C8 (amended) on the concrete one-camera Manager state. -/
theorem health_published_by_reference_witness :
    getHealth sampleRunningSt "cam_1" =
      some (heapGet sampleRunningSt.heap 0) ∧
    getHealth (workerEmitFrame sampleRunningSt sampleWorker 5) "cam_1" =
      some (emitHealthUpdate (heapGet sampleRunningSt.heap 0) 5) :=
  health_published_by_reference sampleRunningSt "cam_1" sampleWorker 5
    (by decide) (by decide)

/-! ### Claim C9 -/

/-- Running `CameraWorker.restart` (stop then start on the same instance) rewrites
only the `state` field of the Worker's health object: all other fields, in
particular the counters, are preserved. -/
theorem workerRestart_heapGet (st : MState) (w : WorkerM)
    (hr : w.healthRef < st.heap.length) :
    heapGet (workerRestart st w).1.heap w.healthRef =
      { heapGet st.heap w.healthRef with state := WorkerState.STARTING } := by
  have hr1 : w.healthRef < (heapSet st.heap w.healthRef
      { heapGet st.heap w.healthRef with
        state := WorkerState.STOPPED }).length := by
    rw [heapSet_length]; exact hr
  simp only [workerRestart, workerStop, workerStart, publishHealth]
  simp only [Bool.false_eq_true, if_false]
  rw [heapGet_heapSet_self _ _ _ hr1, heapGet_heapSet_self _ _ _ hr]

/-- The fresh-Worker branch of `CameraManager.start` tracks a live Worker
whose brand-new health object is in state STARTING with zero counters. -/
theorem mStartNew_fresh (st : MState) (cid : String) (cam : CameraConfig) :
    ∃ w2, dictGet (mStartNew st cid cam).1.workers cid = some w2 ∧
      heapGet (mStartNew st cid cam).1.heap w2.healthRef =
        { CameraHealth.init cam.id with state := WorkerState.STARTING } ∧
      w2.alive = true := by
  have hlen : st.heap.length <
      (st.heap ++ [CameraHealth.init cam.id]).length := by
    simp
  refine ⟨{ config := cam, alive := true, healthRef := st.heap.length },
    ?_, ?_, rfl⟩
  · simp only [mStartNew, workerStart, publishHealth]
    simp only [Bool.false_eq_true, if_false]
    rw [dictGet_dictSet_self]
  · simp only [mStartNew, workerStart, publishHealth]
    simp only [Bool.false_eq_true, if_false]
    rw [heapGet_heapSet_self _ _ _ hlen, heapGet_append_self]

/-- C9 counterexample: a Manager restart of `cam_1`, whose tracked Worker has
`frames_total = 5`, leaves the camera's health with `frames_total = 5`: the
counters do not start again from zero, because `CameraManager.restart`
delegates to `worker.restart()` on the same Worker instance and health
object. -/
theorem restart_resets_counters_counterexample :
    (mRestart [sampleConfig] sampleCountedSt "cam_1").toOption.map
      (fun q => (getHealth q.1 "cam_1").map (fun h => h.frames_total)) =
      some (some 5) ∧ (5 : ℕ) ≠ 0 := by
  constructor
  · decide
  · decide

/-- C9 amended: after `CameraManager.restart`, the health counters are
preserved when a Worker was tracked (restart reuses the same Worker instance
and health object); the counters start from zero only when no Worker was
tracked, in which case restart delegates to `start`, which creates a brand
new Worker with a fresh health object. -/
theorem restart_counter_semantics (reg : List CameraConfig) (st : MState)
    (cid : String) :
    (∀ w, dictGet st.workers cid = some w → w.healthRef < st.heap.length →
      ∃ q, mRestart reg st cid = .ok q ∧
        (heapGet q.1.heap w.healthRef).frames_total =
          (heapGet st.heap w.healthRef).frames_total ∧
        (heapGet q.1.heap w.healthRef).dropped_total =
          (heapGet st.heap w.healthRef).dropped_total) ∧
    (dictGet st.workers cid = none → ∀ cam, regGet reg cid = some cam →
      ∃ q, mRestart reg st cid = .ok q ∧
        ∃ w2, dictGet q.1.workers cid = some w2 ∧
          (heapGet q.1.heap w2.healthRef).frames_total = 0 ∧
          (heapGet q.1.heap w2.healthRef).dropped_total = 0) := by
  constructor
  · intro w hw hr
    have hq : mRestart reg st cid = .ok
        ({ (workerRestart st w).1 with
            workers := dictSet (workerRestart st w).1.workers cid
              (workerRestart st w).2 }, true) := by
      simp only [mRestart, hw]
    refine ⟨_, hq, ?_, ?_⟩
    · show (heapGet (workerRestart st w).1.heap w.healthRef).frames_total = _
      rw [workerRestart_heapGet st w hr]
    · show (heapGet (workerRestart st w).1.heap w.healthRef).dropped_total = _
      rw [workerRestart_heapGet st w hr]
  · intro hw cam hcam
    have hq : mRestart reg st cid = .ok (mStartNew st cid cam) := by
      simp only [mRestart, hw, mStart, hcam]
    obtain ⟨w2, hw2, hh2, -⟩ := mStartNew_fresh st cid cam
    refine ⟨_, hq, w2, ?_, ?_, ?_⟩
    · show dictGet (mStartNew st cid cam).1.workers cid = some w2
      exact hw2
    · show (heapGet (mStartNew st cid cam).1.heap w2.healthRef).frames_total = 0
      rw [hh2]
      rfl
    · show (heapGet (mStartNew st cid cam).1.heap w2.healthRef).dropped_total = 0
      rw [hh2]
      rfl

/-- Witness for C9 (amended): restarting the tracked `cam_1` whose counters
read 5 frames / 2 drops yields a state whose health still reads those
counters. -/
theorem restart_counter_semantics_witness :
    ∃ q, mRestart [sampleConfig] sampleCountedSt "cam_1" = .ok q ∧
      (heapGet q.1.heap sampleWorker.healthRef).frames_total =
        (heapGet sampleCountedSt.heap sampleWorker.healthRef).frames_total ∧
      (heapGet q.1.heap sampleWorker.healthRef).dropped_total =
        (heapGet sampleCountedSt.heap sampleWorker.healthRef).dropped_total :=
  (restart_counter_semantics [sampleConfig] sampleCountedSt "cam_1").1
    sampleWorker (by decide) (by decide)

/-! ### Claim C10 -/

/-- Every health value has exactly one of the five worker states, so the four
snapshot buckets plus the STARTING count partition the cache. -/
theorem health_state_partition (hs : List CameraHealth) :
    hs.countP (fun h => decide (h.state = WorkerState.RUNNING)) +
    hs.countP (fun h => decide (h.state = WorkerState.DEGRADED)) +
    hs.countP (fun h => decide (h.state = WorkerState.STOPPED)) +
    hs.countP (fun h => decide (h.state = WorkerState.ERROR)) +
    hs.countP (fun h => decide (h.state = WorkerState.STARTING)) =
    hs.length := by
  induction hs with
  | nil => rfl
  | cons h rest ih =>
    simp only [List.countP_cons, List.length_cons]
    cases hst : h.state <;> simp [hst] <;> omega

/-- C10: `CameraManager.snapshot` reports `total` as the number of cached
health entries, counts an entry under running/degraded/stopped/error exactly
when its state is RUNNING/DEGRADED/STOPPED/ERROR, and a STARTING entry is in
`total` but in none of the four buckets, so the four buckets sum to strictly
less than `total` whenever some entry is STARTING. -/
theorem snapshot_state_counts (st : MState) :
    (snapshot st).total = (listHealth st).length ∧
    (snapshot st).running = (listHealth st).countP
      (fun h => decide (h.state = WorkerState.RUNNING)) ∧
    (snapshot st).degraded = (listHealth st).countP
      (fun h => decide (h.state = WorkerState.DEGRADED)) ∧
    (snapshot st).stopped = (listHealth st).countP
      (fun h => decide (h.state = WorkerState.STOPPED)) ∧
    (snapshot st).error = (listHealth st).countP
      (fun h => decide (h.state = WorkerState.ERROR)) ∧
    (snapshot st).running + (snapshot st).degraded + (snapshot st).stopped +
      (snapshot st).error + (listHealth st).countP
        (fun h => decide (h.state = WorkerState.STARTING)) =
      (snapshot st).total ∧
    (0 < (listHealth st).countP
        (fun h => decide (h.state = WorkerState.STARTING)) →
      (snapshot st).running + (snapshot st).degraded + (snapshot st).stopped +
        (snapshot st).error < (snapshot st).total) := by
  have hsum : (snapshot st).running + (snapshot st).degraded +
      (snapshot st).stopped + (snapshot st).error +
      (listHealth st).countP
        (fun h => decide (h.state = WorkerState.STARTING)) =
      (snapshot st).total := by
    simp only [snapshot]
    exact health_state_partition (listHealth st)
  exact ⟨rfl, rfl, rfl, rfl, rfl, hsum, fun hpos => by omega⟩

/-- Witness for C10 on a Manager caching a single STARTING entry: the four
buckets sum to 0, strictly below `total = 1`. -/
theorem snapshot_state_counts_witness :
    (snapshot sampleStartingSt).running + (snapshot sampleStartingSt).degraded +
      (snapshot sampleStartingSt).stopped + (snapshot sampleStartingSt).error <
      (snapshot sampleStartingSt).total :=
  (snapshot_state_counts sampleStartingSt).2.2.2.2.2.2 (by decide)

/-! ### Reconciliation lemmas (claims C3 and C4) -/

theorem mStop_workers_self (st : MState) (cid : String) :
    dictGet (mStop st cid).1.workers cid = none := by
  unfold mStop
  cases h : dictGet st.workers cid <;>
    simp [workerStop, publishHealth, dictGet_dictPop_self]

theorem mStop_workers_ne (st : MState) (cid c : String) (hne : c ≠ cid) :
    dictGet (mStop st cid).1.workers c = dictGet st.workers c := by
  unfold mStop
  cases h : dictGet st.workers cid <;>
    simp [workerStop, publishHealth, dictGet_dictPop_ne _ _ _ hne]

theorem mStartNew_snd (st : MState) (cid : String) (cam : CameraConfig) :
    (mStartNew st cid cam).2 = true := rfl

theorem mStartNew_workers_ne (st : MState) (cid : String) (cam : CameraConfig)
    (c : String) (hne : c ≠ cid) :
    dictGet (mStartNew st cid cam).1.workers c = dictGet st.workers c := by
  simp only [mStartNew, workerStart, publishHealth]
  simp only [Bool.false_eq_true, if_false]
  rw [dictGet_dictSet_ne _ _ _ _ hne, dictGet_dictSet_ne _ _ _ _ hne]

theorem workerAliveAt_eq_true_iff (st : MState) (cid : String) :
    workerAliveAt st cid = true ↔
      ∃ w, dictGet st.workers cid = some w ∧ w.alive = true := by
  unfold workerAliveAt
  cases h : dictGet st.workers cid <;> simp [h]

theorem mStart_of_not_alive (reg : List CameraConfig) (st : MState)
    (cid : String) (cam : CameraConfig) (hcam : regGet reg cid = some cam)
    (hal : workerAliveAt st cid = false) :
    mStart reg st cid = .ok (mStartNew st cid cam) := by
  simp only [mStart, hcam]
  cases hdw : dictGet st.workers cid with
  | none => rfl
  | some w =>
    have hwa : w.alive = false := by simpa [workerAliveAt, hdw] using hal
    simp [hwa]

theorem startStep_of_alive (reg : List CameraConfig) (p : MState × List Action)
    (cid : String) (hal : workerAliveAt p.1 cid = true) :
    startStep reg p cid = .ok p := by
  simp [startStep, hal]

theorem startStep_of_not_alive (reg : List CameraConfig)
    (p : MState × List Action) (cid : String) (cam : CameraConfig)
    (hcam : regGet reg cid = some cam) (hal : workerAliveAt p.1 cid = false) :
    startStep reg p cid =
      .ok ((mStartNew p.1 cid cam).1, p.2 ++ [Action.start cid]) := by
  simp only [startStep, hal, Bool.false_eq_true, if_false]
  rw [mStart_of_not_alive reg p.1 cid cam hcam hal]
  simp [mStartNew_snd]

theorem stopStep_workers_none (en : List String) (p : MState × List Action)
    (cid c : String) (h : dictGet p.1.workers c = none) :
    dictGet (stopStep en p cid).1.workers c = none := by
  unfold stopStep
  by_cases hcen : cid ∈ en
  · simp [hcen, h]
  · by_cases hcc : c = cid
    · subst hcc; simp [hcen, mStop_workers_self]
    · simp [hcen, mStop_workers_ne _ _ _ hcc, h]

theorem stopFold_workers_none (en : List String) (cids : List String) :
    ∀ (p : MState × List Action) (c : String),
    dictGet p.1.workers c = none →
    dictGet ((cids.foldl (stopStep en) p)).1.workers c = none := by
  induction cids with
  | nil => intro p c h; simpa using h
  | cons c0 cs ih =>
    intro p c h
    rw [List.foldl_cons]
    exact ih _ c (stopStep_workers_none en p c0 c h)

theorem stopStep_workers_mem_en (en : List String) (p : MState × List Action)
    (cid c : String) (hc : c ∈ en) :
    dictGet (stopStep en p cid).1.workers c = dictGet p.1.workers c := by
  unfold stopStep
  by_cases hcen : cid ∈ en
  · simp [hcen]
  · have hcc : c ≠ cid := fun hh => hcen (hh ▸ hc)
    simp [hcen, mStop_workers_ne _ _ _ hcc]

theorem stopFold_workers_mem_en (en : List String) (cids : List String) :
    ∀ (p : MState × List Action) (c : String), c ∈ en →
    dictGet ((cids.foldl (stopStep en) p)).1.workers c =
      dictGet p.1.workers c := by
  induction cids with
  | nil => intro p c _; simp
  | cons c0 cs ih =>
    intro p c h
    rw [List.foldl_cons, ih _ c h, stopStep_workers_mem_en en p c0 c h]

theorem stopFold_workers_not_en (en : List String) (cids : List String) :
    ∀ (p : MState × List Action) (c : String), c ∉ en → c ∈ cids →
    dictGet ((cids.foldl (stopStep en) p)).1.workers c = none := by
  induction cids with
  | nil => intro p c _ hmem; simp at hmem
  | cons c0 cs ih =>
    intro p c h hmem
    rw [List.foldl_cons]
    rcases List.mem_cons.mp hmem with hh | hh
    · subst hh
      apply stopFold_workers_none
      unfold stopStep
      simp [h, mStop_workers_self]
    · exact ih _ c h hh

theorem stopFold_id (en : List String) (cids : List String) :
    ∀ p : MState × List Action, (∀ c ∈ cids, c ∈ en) →
    cids.foldl (stopStep en) p = p := by
  induction cids with
  | nil => intro p _; rfl
  | cons c0 cs ih =>
    intro p hall
    rw [List.foldl_cons,
      show stopStep en p c0 = p from by
        unfold stopStep; simp [hall c0 (List.mem_cons_self c0 cs)]]
    exact ih p (fun c hc => hall c (List.mem_cons_of_mem _ hc))

theorem startFold_id (reg : List CameraConfig) (cids : List String) :
    ∀ p : MState × List Action, (∀ c ∈ cids, workerAliveAt p.1 c = true) →
    cids.foldlM (startStep reg) p = .ok p := by
  induction cids with
  | nil => intro p _; rfl
  | cons c0 cs ih =>
    intro p hall
    rw [List.foldlM_cons,
      startStep_of_alive reg p c0 (hall c0 (List.mem_cons_self c0 cs))]
    exact ih p (fun c hc => hall c (List.mem_cons_of_mem _ hc))

theorem regGet_isSome_of_mem (reg : List CameraConfig) (cfg : CameraConfig)
    (hmem : cfg ∈ reg) : ∃ cam, regGet reg cfg.id = some cam := by
  induction reg with
  | nil => simp at hmem
  | cons r rs ih =>
    by_cases hr : (r.id == cfg.id) = true
    · exact ⟨r, by unfold regGet; exact List.find?_cons_of_pos _ hr⟩
    · rcases List.mem_cons.mp hmem with hh | hh
      · subst hh; simp at hr
      · obtain ⟨cam, hcam⟩ := ih hh
        refine ⟨cam, ?_⟩
        unfold regGet at hcam ⊢
        rw [List.find?_cons_of_neg
          (p := fun (c : CameraConfig) => c.id == cfg.id) _ hr]
        exact hcam

theorem regGet_isSome_of_enabled (reg : List CameraConfig) :
    ∀ c ∈ enabledIds reg, ∃ cam, regGet reg c = some cam := by
  intro c hc
  simp only [enabledIds, List.mem_map, List.mem_filter] at hc
  obtain ⟨cfg, ⟨hmem, hen⟩, hid⟩ := hc
  subst hid
  exact regGet_isSome_of_mem reg cfg hmem

/-- The start loop of `apply_registry_state` over ids whose configs the
Registry can resolve: it returns normally, touches only the processed keys,
leaves every processed id with a live Worker, and keeps already-live Workers
live. -/
theorem startFold_spec (reg : List CameraConfig) (cids : List String) :
    ∀ p : MState × List Action,
    (∀ c ∈ cids, ∃ cam, regGet reg c = some cam) →
    ∃ q, cids.foldlM (startStep reg) p = .ok q ∧
      (∀ c, c ∉ cids → dictGet q.1.workers c = dictGet p.1.workers c) ∧
      (∀ c, c ∈ cids → ∃ w, dictGet q.1.workers c = some w ∧
        w.alive = true) ∧
      (∀ c w, dictGet p.1.workers c = some w → w.alive = true →
        ∃ w2, dictGet q.1.workers c = some w2 ∧ w2.alive = true) := by
  induction cids with
  | nil =>
    intro p _
    exact ⟨p, rfl, fun c _ => rfl,
      fun c hc => absurd hc (List.not_mem_nil c),
      fun c w hw ha => ⟨w, hw, ha⟩⟩
  | cons c0 cs ih =>
    intro p hreg
    by_cases hal : workerAliveAt p.1 c0 = true
    · obtain ⟨q, hq, hne, hmem, hpres⟩ :=
        ih p (fun c hc => hreg c (List.mem_cons_of_mem _ hc))
      refine ⟨q, ?_, ?_, ?_, hpres⟩
      · rw [List.foldlM_cons, startStep_of_alive reg p c0 hal]
        exact hq
      · intro c hc
        exact hne c (fun hh => hc (List.mem_cons_of_mem _ hh))
      · intro c hc
        rcases List.mem_cons.mp hc with hh | hh
        · subst hh
          obtain ⟨w, hw, ha⟩ := (workerAliveAt_eq_true_iff p.1 c).mp hal
          exact hpres c w hw ha
        · exact hmem c hh
    · have hal2 : workerAliveAt p.1 c0 = false := by
        simpa using hal
      obtain ⟨cam, hcam⟩ := hreg c0 (List.mem_cons_self c0 cs)
      have hstep := startStep_of_not_alive reg p c0 cam hcam hal2
      obtain ⟨q, hq, hne, hmem, hpres⟩ :=
        ih ((mStartNew p.1 c0 cam).1, p.2 ++ [Action.start c0])
          (fun c hc => hreg c (List.mem_cons_of_mem _ hc))
      refine ⟨q, ?_, ?_, ?_, ?_⟩
      · rw [List.foldlM_cons, hstep]
        exact hq
      · intro c hc
        have hc0 : c ≠ c0 := fun hh => hc (hh ▸ List.mem_cons_self c0 cs)
        have hcs : c ∉ cs := fun hh => hc (List.mem_cons_of_mem _ hh)
        rw [hne c hcs]
        exact mStartNew_workers_ne p.1 c0 cam c hc0
      · intro c hc
        rcases List.mem_cons.mp hc with hh | hh
        · subst hh
          obtain ⟨w1, hw1, -, ha1⟩ := mStartNew_fresh p.1 c cam
          exact hpres c w1 hw1 ha1
        · exact hmem c hh
      · intro c w hw ha
        have hc0 : c ≠ c0 := by
          intro hh
          subst hh
          have := (workerAliveAt_eq_true_iff p.1 c).mpr ⟨w, hw, ha⟩
          rw [hal2] at this
          cases this
        apply hpres c w _ ha
        rw [show dictGet ((mStartNew p.1 c0 cam).1, p.2 ++
            [Action.start c0]).1.workers c = dictGet p.1.workers c from
          mStartNew_workers_ne p.1 c0 cam c hc0]
        exact hw

/-- Calling `apply_registry_state` on any Manager state returns normally, leaves
no Worker for any id outside the enabled set, leaves a live Worker for every
enabled id, and its health cache keeps only ids the Registry still knows. -/
theorem applyRegistryState_spec (reg : List CameraConfig) (st : MState) :
    ∃ q, applyRegistryState reg st = .ok q ∧
      (∀ c, c ∉ enabledIds reg → dictGet q.1.workers c = none) ∧
      (∀ c, c ∈ enabledIds reg →
        ∃ w, dictGet q.1.workers c = some w ∧ w.alive = true) ∧
      (∀ e, e ∈ q.1.healthCache → e.1 ∈ allIds reg) := by
  obtain ⟨q2, hq2, hne, hmem, hpres⟩ :=
    startFold_spec reg (enabledIds reg)
      ((st.workers.map Prod.fst).foldl (stopStep (enabledIds reg)) (st, []))
      (regGet_isSome_of_enabled reg)
  refine ⟨({ q2.1 with healthCache :=
      q2.1.healthCache.filter (fun e => decide (e.1 ∈ allIds reg)) }, q2.2),
    ?_, ?_, ?_, ?_⟩
  · simp only [applyRegistryState]
    rw [hq2]
  · intro c hc
    show dictGet q2.1.workers c = none
    rw [hne c hc]
    by_cases hrun : c ∈ st.workers.map Prod.fst
    · exact stopFold_workers_not_en _ _ _ c hc hrun
    · apply stopFold_workers_none
      show dictGet st.workers c = none
      exact dictGet_eq_none_of_not_mem _ _ hrun
  · intro c hc
    exact hmem c hc
  · intro e he
    have hf := List.mem_filter.mp he
    simpa using hf.2

/-! ### Claim C3 -/

/-- C3: after `apply_registry_state()` completes, every camera id not in the
Registry's enabled set has no Worker tracked in the Manager's worker map,
and every camera id in the enabled set has a live Worker tracked. -/
theorem apply_registry_state_reconciles (reg : List CameraConfig)
    (st : MState) :
    ∃ q, applyRegistryState reg st = .ok q ∧
      (∀ c, c ∉ enabledIds reg → dictGet q.1.workers c = none) ∧
      (∀ c, c ∈ enabledIds reg →
        ∃ w, dictGet q.1.workers c = some w ∧ w.alive = true) := by
  obtain ⟨q, hq, h1, h2, -⟩ := applyRegistryState_spec reg st
  exact ⟨q, hq, h1, h2⟩

/-- A second camera configuration, disabled, for reconciliation scenarios. -/
def sampleDisabledConfig : CameraConfig :=
  { id := "cam_2", name := "Cam 2", type := CameraType.RTSP,
    source := "rtsp://example", enabled := false, fps_limit := 10 }

/-- A registry with `cam_1` enabled and `cam_2` disabled. -/
def sampleReg : List CameraConfig := [sampleConfig, sampleDisabledConfig]

/-- Witness for C3: reconciling a fresh Manager against `sampleReg` leaves no
Worker for the disabled `cam_2` and a live Worker for the enabled `cam_1`. -/
theorem apply_registry_state_reconciles_witness :
    ∃ q, applyRegistryState sampleReg MState.empty = .ok q ∧
      dictGet q.1.workers "cam_2" = none ∧
      ∃ w, dictGet q.1.workers "cam_1" = some w ∧ w.alive = true := by
  obtain ⟨q, hq, h1, h2⟩ :=
    apply_registry_state_reconciles sampleReg MState.empty
  exact ⟨q, hq, h1 "cam_2" (by decide), h2 "cam_1" (by decide)⟩

/-! ### Claim C4 -/

/-- C4: `apply_registry_state()` is idempotent: a second call with no
Registry change issues no start or stop action on any Worker and returns the
worker map, health cache and heap unchanged from the first call's result. -/
theorem apply_registry_state_idempotent (reg : List CameraConfig)
    (st : MState) (q1 : MState × List Action)
    (h1 : applyRegistryState reg st = .ok q1) :
    applyRegistryState reg q1.1 = .ok (q1.1, []) := by
  obtain ⟨q, hq, hnone, halive, hcache⟩ := applyRegistryState_spec reg st
  rw [h1] at hq
  have hqq : q = q1 := (Except.ok.inj hq).symm
  subst hqq
  have hrun : ∀ c ∈ q.1.workers.map Prod.fst, c ∈ enabledIds reg := by
    intro c hc
    by_contra hcen
    have hno := hnone c hcen
    have hsome := dictGet_isSome_of_mem _ _ hc
    rw [hno] at hsome
    simp at hsome
  have hstop : (q.1.workers.map Prod.fst).foldl
      (stopStep (enabledIds reg)) (q.1, ([] : List Action)) = (q.1, []) :=
    stopFold_id _ _ _ hrun
  have hstart : (enabledIds reg).foldlM (startStep reg)
      ((q.1, ([] : List Action))) = .ok (q.1, []) := by
    apply startFold_id
    intro c hc
    obtain ⟨w, hw, ha⟩ := halive c hc
    exact (workerAliveAt_eq_true_iff q.1 c).mpr ⟨w, hw, ha⟩
  have hfilter : q.1.healthCache.filter
      (fun e => decide (e.1 ∈ allIds reg)) = q.1.healthCache := by
    apply List.filter_eq_self.mpr
    intro e he
    exact decide_eq_true (hcache e he)
  simp only [applyRegistryState]
  rw [hstop, hstart]
  simp only [hfilter]

/-- Witness for C4: reconciling a fresh Manager against `sampleReg` and then
reconciling again issues no actions and leaves the state unchanged. -/
theorem apply_registry_state_idempotent_witness :
    ∃ q1, applyRegistryState sampleReg MState.empty = .ok q1 ∧
      applyRegistryState sampleReg q1.1 = .ok (q1.1, []) := by
  obtain ⟨q1, hq1, -, -, -⟩ :=
    applyRegistryState_spec sampleReg MState.empty
  exact ⟨q1, hq1,
    apply_registry_state_idempotent sampleReg MState.empty q1 hq1⟩

end Guardian
